import Mathlib

/-!
A shallow embedding, over the rationals, of the spatio-temporal logistics
matching engine in `src/matching_engine.py`, together with proofs of the
behavioural properties stated in the specification.

Modelling conventions:
- Python floats are modelled by `ℚ`.  `np.sqrt` is modelled by `Rat.sqrt`
  (exact on squares of rationals; in particular it sends `0` to `0` and is
  positive on positive inputs, the only facts any theorem below relies on —
  every other use feeds the result into `inv_normalize` as an opaque raw
  value).
- A pandas dataframe is modelled as a list of records; a column as a list.
- A missing optional cell (`NaN` / `NaT`) and the column-level
  `DataFrame.get(col, default)` fallbacks of `compute_scores` are both
  modelled by `Option` fields on the record, with the default applied per
  record exactly where the source applies it per column.
- `Series.min` / `Series.max` on a zero-size array raise a `ValueError` in
  numpy; a raised exception is modelled by `Option.none` propagating out of
  `inv_normalize`, `compute_scores` and `run_matching_engine`.
- Python's `str.split("|")` is modelled by the executable `pySplit '|'`
  below, which has exactly the semantics of `str.split` with a one-character
  separator (no collapsing of empty fields, `"" ↦ [""]`).
-/

/-- The module-level crop taxonomy `CROP_CATEGORIES` of `matching_engine.py`. -/
def CROP_CATEGORIES : List (String × List String) :=
  [("Grains", ["Rice", "Maize", "Beans", "Millet", "Sorghum"]),
   ("Tubers", ["Yam", "Cassava", "Potatoes"]),
   ("Perishables", ["Tomatoes", "Onions", "Peppers"])]

/-- The function `get_category`: return the category name for a given crop,
or "Unknown" when the crop occurs in no category. -/
def get_category (crop : String) : String :=
  match CROP_CATEGORIES.find? (fun p => p.2.contains crop) with
  | some p => p.1
  | none => "Unknown"

/-- The function `compute_distance`: planar Euclidean distance
`sqrt((lat1-lat2)^2 + (lon1-lon2)^2)`. -/
def compute_distance (lat1 lon1 lat2 lon2 : ℚ) : ℚ :=
  Rat.sqrt ((lat1 - lat2) ^ 2 + (lon1 - lon2) ^ 2)

/-- The function `compute_cross_track_deviation`: perpendicular distance of
point P from the line through A and B, `|cross(AB, AP)| / |AB|`; when
`|AB| = 0` the `np.where` fallback returns the direct distance from A to P.
(The guarded division the source performs under `np.errstate` is discarded
by the `np.where` exactly when `norm_AB = 0`, which is how `ℚ` treats the
branch here as well.) -/
def compute_cross_track_deviation (A_lat A_lon B_lat B_lon P_lat P_lon : ℚ) : ℚ :=
  let AB_lat := B_lat - A_lat
  let AB_lon := B_lon - A_lon
  let AP_lat := P_lat - A_lat
  let AP_lon := P_lon - A_lon
  let norm_AB := Rat.sqrt (AB_lat ^ 2 + AB_lon ^ 2)
  let cross_prod := |AB_lon * AP_lat - AB_lat * AP_lon|
  let deviation := cross_prod / norm_AB
  if norm_AB = 0 then compute_distance A_lat A_lon P_lat P_lon else deviation

/-- One cell of `extract_temporal_score`: the `np.select` step function on
the absolute day difference.  A missing (`NaT`) transporter date yields a
`NaN` difference, which satisfies none of the `np.select` conditions and so
falls through to the default `0.0`. -/
def temporal_one (request_date : ℤ) (driver_date : Option ℤ) : ℚ :=
  match driver_date with
  | none => 0
  | some d =>
    let days_diff := (d - request_date).natAbs
    if days_diff = 0 then 1
    else if days_diff = 1 then 0.8
    else if days_diff = 2 then 0.4
    else 0

/-- The function `extract_temporal_score`: if the request date is missing
(`pd.isna`), every transporter receives `1.0`; otherwise the step function is
applied elementwise to the date column.  Dates are modelled as day numbers
(the source normalizes both columns to midnight, so differences are whole
days). -/
def extract_temporal_score (driver_dates : List (Option ℤ)) (request_date : Option ℤ) :
    List ℚ :=
  match request_date with
  | none => List.replicate driver_dates.length 1
  | some rd => driver_dates.map (temporal_one rd)

/-- Split a list of characters at every occurrence of `c`, Python
`str.split` style: empty fields are kept and the empty input yields `[[]]`. -/
def splitOnChar (c : Char) : List Char → List (List Char)
  | [] => [[]]
  | x :: xs =>
    let r := splitOnChar c xs
    if x = c then [] :: r
    else
      match r with
      | [] => [[x]]
      | g :: gs => (x :: g) :: gs

/-- Executable model of Python's `str.split` with a one-character separator,
used for the source's `allowed_str.split("|")`. -/
def pySplit (sep : Char) (s : String) : List String :=
  (splitOnChar sep s.toList).map (fun cs => String.mk cs)

/-- The module-level list `safe_pivots = [{"Grains", "Tubers"}]` of
`extract_affinity_score`. -/
def safe_pivots : List (List String) := [["Grains", "Tubers"]]

/-- One iteration of the scoring loop in `extract_affinity_score`: a missing
(`NaN`) allowed-crops cell scores `0.0`; otherwise exact match `1.0`, then
category match `0.8`, then safe pivot `0.4` (the source's loop-with-break
over `safe_pivots`), otherwise `0.0`. -/
def affinity_one (request_crop : String) (allowed : Option String) : ℚ :=
  match allowed with
  | none => 0
  | some allowed_str =>
    let driver_crops := pySplit '|' allowed_str
    if request_crop ∈ driver_crops then 1
    else
      let req_cat := get_category request_crop
      let driver_categories := driver_crops.map get_category
      if req_cat ∈ driver_categories then 0.8
      else if safe_pivots.any
          (fun pair => pair.contains req_cat && driver_categories.any (fun dc => pair.contains dc))
        then 0.4
      else 0

/-- The function `extract_affinity_score`: the source appends one score per
row of the allowed-crops column, i.e. maps `affinity_one` over the column. -/
def extract_affinity_score (driver_crops_series : List (Option String))
    (request_crop : String) : List ℚ :=
  driver_crops_series.map (affinity_one request_crop)

/-- A row of the transporter (drivers) table.  `Option` fields model the
optional columns / cells; see the module docstring. -/
structure Transporter where
  driver_id : String
  current_lat : ℚ
  current_lon : ℚ
  home_base_lat : Option ℚ
  home_base_lon : Option ℚ
  available_capacity : Option ℚ
  available_date : Option ℤ
  allowed_crops : Option String
deriving Repr, DecidableEq, Inhabited

/-- A row of the requests table. -/
structure ShipmentRequest where
  request_id : String
  pickup_lat : ℚ
  pickup_lon : ℚ
  dropoff_lat : ℚ
  dropoff_lon : ℚ
  required_capacity : ℚ
  requested_date : Option ℤ
  crop_type : String
deriving Repr, DecidableEq, Inhabited

/-- The `home_base_lat` fallback of `compute_scores`:
`drivers_df.get("home_base_lat", drivers_df["current_lat"])`. -/
def home_lat (t : Transporter) : ℚ := t.home_base_lat.getD t.current_lat

/-- The `home_base_lon` fallback of `compute_scores`. -/
def home_lon (t : Transporter) : ℚ := t.home_base_lon.getD t.current_lon

/-- One cell of the capacity mask of `compute_scores`:
`(avail_caps >= req_cap).astype(float)`, with the missing-capacity fallback
`pd.Series(np.zeros(...))`. -/
def capacity_mask (req_cap : ℚ) (t : Transporter) : ℚ :=
  if t.available_capacity.getD 0 ≥ req_cap then 1 else 0

/-- One cell of the deadhead column of `compute_scores`: distance from the
transporter's current position to the pickup point. -/
def deadhead_dist (req : ShipmentRequest) (t : Transporter) : ℚ :=
  compute_distance t.current_lat t.current_lon req.pickup_lat req.pickup_lon

/-- One cell of the corridor column of `compute_scores`: cross-track
deviation of pickup plus cross-track deviation of dropoff from the
current-position → home-base line. -/
def total_dev (req : ShipmentRequest) (t : Transporter) : ℚ :=
  compute_cross_track_deviation t.current_lat t.current_lon (home_lat t) (home_lon t)
    req.pickup_lat req.pickup_lon +
  compute_cross_track_deviation t.current_lat t.current_lon (home_lat t) (home_lon t)
    req.dropoff_lat req.dropoff_lon

/-- The inner function `inv_normalize` of `compute_scores`.  On a zero-size
array `arr.min()` raises a `ValueError` in numpy, modelled by `none`;
otherwise, if `max - min ≤ 1e-12` every entry normalizes to `1.0`, else to
`1 - (x - min)/(max - min)`. -/
def inv_normalize (arr : List ℚ) : Option (List ℚ) :=
  match arr with
  | [] => none
  | x :: xs =>
    let minv := xs.foldl min x
    let maxv := xs.foldl max x
    if maxv - minv ≤ 1 / 10 ^ 12 then some (List.replicate (x :: xs).length 1)
    else some ((x :: xs).map (fun v => 1 - (v - minv) / (maxv - minv)))

/-- A row of the per-request features dataframe built by `compute_scores`. -/
structure FeatureRow where
  driver_id : String
  capacity_score : ℚ
  time_score : ℚ
  affinity_score : ℚ
  deadhead_score : ℚ
  corridor_score : ℚ
deriving Repr, DecidableEq, Inhabited

/-- Assembling the features dataframe from its six columns (the
`pd.DataFrame({...})` call in `compute_scores`). -/
def build_features : List String → List ℚ → List ℚ → List ℚ → List ℚ → List ℚ →
    List FeatureRow
  | i :: is, a :: as, b :: bs, c :: cs, d :: ds, e :: es =>
    ⟨i, a, b, c, d, e⟩ :: build_features is as bs cs ds es
  | _, _, _, _, _, _ => []

/-- The function `compute_scores`: computes the five per-factor columns for
one request over the whole transporter table and assembles them into the
features dataframe.  `none` models the `ValueError` numpy raises inside
`inv_normalize` when the table is empty. -/
def compute_scores (drivers : List Transporter) (req : ShipmentRequest) :
    Option (List FeatureRow) :=
  let capacity_score := drivers.map (fun t => capacity_mask req.required_capacity t)
  let time_score := extract_temporal_score (drivers.map (fun t => t.available_date))
    req.requested_date
  let affinity_score := extract_affinity_score (drivers.map (fun t => t.allowed_crops))
    req.crop_type
  let deadhead_dists := drivers.map (fun t => deadhead_dist req t)
  let total_devs := drivers.map (fun t => total_dev req t)
  match inv_normalize deadhead_dists, inv_normalize total_devs with
  | some deadhead_score, some corridor_score =>
    some (build_features (drivers.map (fun t => t.driver_id))
      capacity_score time_score affinity_score deadhead_score corridor_score)
  | _, _ => none

/-- Weight `W_DEADHEAD` of `run_matching_engine`. -/
def W_DEADHEAD : ℚ := 0.25

/-- Weight `W_CORRIDOR` of `run_matching_engine`. -/
def W_CORRIDOR : ℚ := 0.35

/-- Weight `W_AFFINITY` of `run_matching_engine`. -/
def W_AFFINITY : ℚ := 0.20

/-- Weight `W_TIME` of `run_matching_engine`. -/
def W_TIME : ℚ := 0.20

/-- The `final_score` column of `run_matching_engine`: the weighted sum of
the four scored factors, multiplied by the capacity mask. -/
def final_score (r : FeatureRow) : ℚ :=
  (W_DEADHEAD * r.deadhead_score + W_CORRIDOR * r.corridor_score +
    W_AFFINITY * r.affinity_score + W_TIME * r.time_score) * r.capacity_score

/-- Insert one row into a list that is sorted by descending `final_score`,
keeping it sorted. -/
def insert_by_score (x : FeatureRow) : List FeatureRow → List FeatureRow
  | [] => [x]
  | y :: ys =>
    if final_score y < final_score x then x :: y :: ys
    else y :: insert_by_score x ys

/-- The `features.sort_values(by="final_score", ascending=False)` call of
`run_matching_engine`, realized as an insertion sort by descending
`final_score`.  (The source's tie order among equal scores is whatever
pandas' default sort produces and is not relied upon by any theorem.) -/
def sort_by_score_desc : List FeatureRow → List FeatureRow
  | [] => []
  | x :: xs => insert_by_score x (sort_by_score_desc xs)

/-- A row of the output matches table. -/
structure Match where
  request_id : String
  driver_id : String
  final_score : ℚ
  capacity_score : ℚ
  time_score : ℚ
  affinity_score : ℚ
  deadhead_score : ℚ
  corridor_score : ℚ
deriving Repr, DecidableEq, Inhabited

/-- The body of the per-request loop of `run_matching_engine`: score all
transporters, sort by descending final score, keep the head `top_k`, and
append a `Match` record for each retained row whose final score is `> 0`. -/
def request_matches (drivers : List Transporter) (req : ShipmentRequest)
    (top_k : Nat) : Option (List Match) :=
  (compute_scores drivers req).map (fun features =>
    let top := (sort_by_score_desc features).take top_k
    (top.filter (fun r => 0 < final_score r)).map (fun r =>
      { request_id := req.request_id
        driver_id := r.driver_id
        final_score := final_score r
        capacity_score := r.capacity_score
        time_score := r.time_score
        affinity_score := r.affinity_score
        deadhead_score := r.deadhead_score
        corridor_score := r.corridor_score }))

/-- The function `run_matching_engine` (default `top_k = 3`): the per-request
match lists concatenated over the requests table; a raised exception in any
iteration aborts the whole call (`none`). -/
def run_matching_engine (drivers : List Transporter)
    (requests : List ShipmentRequest) (top_k : Nat := 3) : Option (List Match) :=
  (requests.mapM (fun req => request_matches drivers req top_k)).map List.flatten

/-- A concrete transporter (all fields present, at the origin) used to
evaluate the theorems on small inputs. -/
def sample_transporter : Transporter :=
  { driver_id := "DRV0001", current_lat := 0, current_lon := 0,
    home_base_lat := none, home_base_lon := none,
    available_capacity := some 30, available_date := some 10,
    allowed_crops := some "Maize" }

/-- A concrete transporter with every optional field missing. -/
def bare_transporter : Transporter :=
  { driver_id := "DRV0002", current_lat := 0, current_lon := 0,
    home_base_lat := none, home_base_lon := none,
    available_capacity := none, available_date := none,
    allowed_crops := none }

/-- A concrete request used to evaluate the theorems on small inputs. -/
def sample_request : ShipmentRequest :=
  { request_id := "REQ0001", pickup_lat := 0, pickup_lon := 0,
    dropoff_lat := 0, dropoff_lon := 0, required_capacity := 20,
    requested_date := some 10, crop_type := "Maize" }

/-- The features dataframe the engine computes for `[sample_transporter]`
and `sample_request` (all five factors score 1). -/
def sample_rows : List FeatureRow :=
  [{ driver_id := "DRV0001", capacity_score := 1, time_score := 1,
     affinity_score := 1, deadhead_score := 1, corridor_score := 1 }]

/-- The match record the engine emits for `[sample_transporter]` and
`sample_request` (composite score 1). -/
def sample_match : Match :=
  { request_id := "REQ0001", driver_id := "DRV0001", final_score := 1,
    capacity_score := 1, time_score := 1, affinity_score := 1,
    deadhead_score := 1, corridor_score := 1 }

/-!
Cell-level NaN semantics.  The `Option` fields of `Transporter` above model
the fallbacks the source applies itself (per-cell `pd.isna` checks for the
date and crops columns, `DataFrame.get` column defaults for home base and
capacity).  A missing cell inside a PRESENT column is different: pandas
materializes it as a float `NaN`, which the engine never checks for in the
home-base and capacity columns.  The definitions below model that path: a
float that may be NaN is an `Option ℚ` with `none` for NaN, every arithmetic
operation propagates NaN, and every comparison involving NaN is false —
exactly the IEEE behaviour numpy exhibits (finite values stay exact
rationals, as everywhere else in this file).
-/

/-- NaN-propagating addition (`NaN + x = NaN`). -/
def fadd : Option ℚ → Option ℚ → Option ℚ
  | some a, some b => some (a + b)
  | _, _ => none

/-- NaN-propagating subtraction. -/
def fsub : Option ℚ → Option ℚ → Option ℚ
  | some a, some b => some (a - b)
  | _, _ => none

/-- NaN-propagating multiplication; note `NaN * 0 = NaN` in IEEE floats, so
even a 0 capacity mask does not rescue a NaN weighted sum. -/
def fmul : Option ℚ → Option ℚ → Option ℚ
  | some a, some b => some (a * b)
  | _, _ => none

/-- NaN-propagating division (the `np.errstate`-guarded `np.divide`; the
finite-by-zero case is discarded by the `np.where` exactly as in
`compute_cross_track_deviation`). -/
def fdiv : Option ℚ → Option ℚ → Option ℚ
  | some a, some b => some (a / b)
  | _, _ => none

/-- NaN-propagating square root. -/
def fsqrt : Option ℚ → Option ℚ
  | some a => some (Rat.sqrt a)
  | none => none

/-- NaN-propagating absolute value. -/
def fabs : Option ℚ → Option ℚ
  | some a => some |a|
  | none => none

/-- numpy `min` reduction step: `min` with NaN is NaN. -/
def fmin : Option ℚ → Option ℚ → Option ℚ
  | some a, some b => some (min a b)
  | _, _ => none

/-- numpy `max` reduction step: `max` with NaN is NaN. -/
def fmax : Option ℚ → Option ℚ → Option ℚ
  | some a, some b => some (max a b)
  | _, _ => none

/-- numpy `== 0` on a possibly-NaN value: `NaN == 0` is false. -/
def feq_zero : Option ℚ → Bool
  | some a => decide (a = 0)
  | none => false

/-- numpy `>=` against a finite right-hand side: `NaN >= x` is false. -/
def fge (a : Option ℚ) (b : ℚ) : Bool :=
  match a with
  | some x => decide (b ≤ x)
  | none => false

/-- numpy `<=` against a finite right-hand side: `NaN <= x` is false (this
is the comparison of the `1e-12` epsilon test). -/
def fle (a : Option ℚ) (b : ℚ) : Bool :=
  match a with
  | some x => decide (x ≤ b)
  | none => false

/-- The `float(row["final_score"]) > 0` viability check: false for NaN, so
a NaN-scored row is silently dropped from the output. -/
def flt (a : ℚ) (b : Option ℚ) : Bool :=
  match b with
  | some y => decide (a < y)
  | none => false

/-- `compute_distance` on possibly-NaN cells. -/
def compute_distance_cell (lat1 lon1 lat2 lon2 : Option ℚ) : Option ℚ :=
  fsqrt (fadd (fmul (fsub lat1 lat2) (fsub lat1 lat2))
    (fmul (fsub lon1 lon2) (fsub lon1 lon2)))

/-- `compute_cross_track_deviation` on possibly-NaN cells: with a NaN
home-base coordinate, `norm_AB` is NaN, the `np.where` test `NaN == 0` is
false, and the deviation comes out NaN. -/
def compute_cross_track_deviation_cell
    (A_lat A_lon B_lat B_lon P_lat P_lon : Option ℚ) : Option ℚ :=
  let AB_lat := fsub B_lat A_lat
  let AB_lon := fsub B_lon A_lon
  let AP_lat := fsub P_lat A_lat
  let AP_lon := fsub P_lon A_lon
  let norm_AB := fsqrt (fadd (fmul AB_lat AB_lat) (fmul AB_lon AB_lon))
  let cross_prod := fabs (fsub (fmul AB_lon AP_lat) (fmul AB_lat AP_lon))
  let deviation := fdiv cross_prod norm_AB
  if feq_zero norm_AB then compute_distance_cell A_lat A_lon P_lat P_lon else deviation

/-- The raw corridor-deviation cell when the home-base COLUMNS are present
but this record's cells may be empty (NaN): the source reads the cells
as-is, with no fallback. -/
def total_dev_cell (req : ShipmentRequest) (t : Transporter) : Option ℚ :=
  fadd
    (compute_cross_track_deviation_cell (some t.current_lat) (some t.current_lon)
      t.home_base_lat t.home_base_lon (some req.pickup_lat) (some req.pickup_lon))
    (compute_cross_track_deviation_cell (some t.current_lat) (some t.current_lon)
      t.home_base_lat t.home_base_lon (some req.dropoff_lat) (some req.dropoff_lon))

/-- `inv_normalize` on a column that may contain NaN cells: `arr.min()` and
`arr.max()` propagate NaN, a NaN range fails the epsilon test, and the
rescale formula then maps every entry of the column to NaN. -/
def inv_normalize_cell (arr : List (Option ℚ)) : Option (List (Option ℚ)) :=
  match arr with
  | [] => none
  | x :: xs =>
    let minv := xs.foldl fmin x
    let maxv := xs.foldl fmax x
    if fle (fsub maxv minv) (1 / 10 ^ 12) then
      some (List.replicate (x :: xs).length (some 1))
    else some ((x :: xs).map (fun v => fsub (some 1) (fdiv (fsub v minv) (fsub maxv minv))))

/-- The capacity-mask cell when the capacity COLUMN is present but this
record's cell may be empty (NaN): `(cell >= req_cap)` is false for NaN, so
the transporter is gated out regardless of the required capacity. -/
def capacity_mask_cell (req_cap : ℚ) (cell : Option ℚ) : ℚ :=
  if fge cell req_cap then 1 else 0

/-- The `final_score` cell on possibly-NaN factor scores. -/
def final_score_cell (deadhead corridor affinity time capacity : Option ℚ) : Option ℚ :=
  fmul
    (fadd (fadd (fadd (fmul (some W_DEADHEAD) deadhead) (fmul (some W_CORRIDOR) corridor))
      (fmul (some W_AFFINITY) affinity)) (fmul (some W_TIME) time))
    capacity

/-! Helper lemmas. -/

theorem rat_sqrt_zero : Rat.sqrt 0 = 0 := by
  simp [Rat.sqrt]

theorem foldl_min_le_init (xs : List ℚ) : ∀ x : ℚ, xs.foldl min x ≤ x := by
  induction xs with
  | nil => intro x; exact le_refl x
  | cons a as ih =>
    intro x
    exact le_trans (ih (min x a)) (min_le_left x a)

theorem foldl_min_le_mem (xs : List ℚ) : ∀ x y, y ∈ xs → xs.foldl min x ≤ y := by
  induction xs with
  | nil => intro x y hy; cases hy
  | cons a as ih =>
    intro x y hy
    rcases List.mem_cons.mp hy with h | h
    · subst h
      exact le_trans (foldl_min_le_init as (min x y)) (min_le_right x y)
    · exact ih (min x a) y h

theorem foldl_min_le (xs : List ℚ) (x y : ℚ) (hy : y ∈ x :: xs) :
    xs.foldl min x ≤ y := by
  rcases List.mem_cons.mp hy with h | h
  · subst h; exact foldl_min_le_init xs y
  · exact foldl_min_le_mem xs x y h

theorem init_le_foldl_max (xs : List ℚ) : ∀ x : ℚ, x ≤ xs.foldl max x := by
  induction xs with
  | nil => intro x; exact le_refl x
  | cons a as ih =>
    intro x
    exact le_trans (le_max_left x a) (ih (max x a))

theorem mem_le_foldl_max (xs : List ℚ) : ∀ x y, y ∈ xs → y ≤ xs.foldl max x := by
  induction xs with
  | nil => intro x y hy; cases hy
  | cons a as ih =>
    intro x y hy
    rcases List.mem_cons.mp hy with h | h
    · subst h
      exact le_trans (le_max_right x y) (init_le_foldl_max as (max x y))
    · exact ih (max x a) y h

theorem le_foldl_max (xs : List ℚ) (x y : ℚ) (hy : y ∈ x :: xs) :
    y ≤ xs.foldl max x := by
  rcases List.mem_cons.mp hy with h | h
  · subst h; exact init_le_foldl_max xs y
  · exact mem_le_foldl_max xs x y h

theorem foldl_min_mem (xs : List ℚ) : ∀ x : ℚ, xs.foldl min x ∈ x :: xs := by
  induction xs with
  | nil => intro x; simp
  | cons a as ih =>
    intro x
    have h := ih (min x a)
    rcases List.mem_cons.mp h with h1 | h1
    · rcases min_choice x a with hc | hc
      · rw [List.foldl_cons, h1, hc]; exact List.mem_cons_self x (a :: as)
      · rw [List.foldl_cons, h1, hc]
        exact List.mem_cons_of_mem x (List.mem_cons_self a as)
    · rw [List.foldl_cons]
      exact List.mem_cons_of_mem x (List.mem_cons_of_mem a h1)

theorem foldl_max_mem (xs : List ℚ) : ∀ x : ℚ, xs.foldl max x ∈ x :: xs := by
  induction xs with
  | nil => intro x; simp
  | cons a as ih =>
    intro x
    have h := ih (max x a)
    rcases List.mem_cons.mp h with h1 | h1
    · rcases max_choice x a with hc | hc
      · rw [List.foldl_cons, h1, hc]; exact List.mem_cons_self x (a :: as)
      · rw [List.foldl_cons, h1, hc]
        exact List.mem_cons_of_mem x (List.mem_cons_self a as)
    · rw [List.foldl_cons]
      exact List.mem_cons_of_mem x (List.mem_cons_of_mem a h1)

theorem inv_normalize_cons (x : ℚ) (xs : List ℚ) :
    inv_normalize (x :: xs) =
      if xs.foldl max x - xs.foldl min x ≤ 1 / 10 ^ 12 then
        some (List.replicate (x :: xs).length 1)
      else
        some ((x :: xs).map
          (fun v => 1 - (v - xs.foldl min x) / (xs.foldl max x - xs.foldl min x))) := by
  rfl

theorem inv_normalize_some (x : ℚ) (xs : List ℚ) :
    ∃ out, inv_normalize (x :: xs) = some out ∧ out.length = (x :: xs).length := by
  rw [inv_normalize_cons]
  by_cases h : xs.foldl max x - xs.foldl min x ≤ 1 / 10 ^ 12
  · rw [if_pos h]; exact ⟨_, rfl, by simp⟩
  · rw [if_neg h]; exact ⟨_, rfl, by simp⟩

theorem inv_normalize_length (arr out : List ℚ) (h : inv_normalize arr = some out) :
    out.length = arr.length := by
  match arr with
  | [] => simp [inv_normalize] at h
  | x :: xs =>
    rw [inv_normalize_cons] at h
    by_cases hc : xs.foldl max x - xs.foldl min x ≤ 1 / 10 ^ 12
    · rw [if_pos hc] at h
      cases h; simp
    · rw [if_neg hc] at h
      cases h; simp

theorem inv_normalize_mem (arr out : List ℚ) (h : inv_normalize arr = some out) :
    ∀ y ∈ out, 0 ≤ y ∧ y ≤ 1 := by
  match arr with
  | [] => simp [inv_normalize] at h
  | x :: xs =>
    rw [inv_normalize_cons] at h
    by_cases hc : xs.foldl max x - xs.foldl min x ≤ 1 / 10 ^ 12
    · rw [if_pos hc] at h
      cases h
      intro y hy
      have := List.eq_of_mem_replicate hy
      subst this
      exact ⟨zero_le_one, le_refl 1⟩
    · rw [if_neg hc] at h
      cases h
      intro y hy
      rcases List.mem_map.mp hy with ⟨v, hv, hvy⟩
      have hpos : 0 < xs.foldl max x - xs.foldl min x := by
        have heps : (0 : ℚ) < 1 / 10 ^ 12 := by norm_num
        linarith [lt_of_not_le hc]
      have hlo : xs.foldl min x ≤ v := foldl_min_le xs x v hv
      have hhi : v ≤ xs.foldl max x := le_foldl_max xs x v hv
      have h0 : 0 ≤ (v - xs.foldl min x) / (xs.foldl max x - xs.foldl min x) :=
        div_nonneg (by linarith) hpos.le
      have h1 : (v - xs.foldl min x) / (xs.foldl max x - xs.foldl min x) ≤ 1 :=
        (div_le_one hpos).mpr (by linarith)
      constructor
      · rw [← hvy]; linarith
      · rw [← hvy]; linarith

theorem build_features_getElem? :
    ∀ (is_ : List String) (as_ bs cs ds es : List ℚ) (i : Nat)
      (a1 : String) (a2 a3 a4 a5 a6 : ℚ),
      is_[i]? = some a1 → as_[i]? = some a2 → bs[i]? = some a3 → cs[i]? = some a4 →
      ds[i]? = some a5 → es[i]? = some a6 →
      (build_features is_ as_ bs cs ds es)[i]? = some ⟨a1, a2, a3, a4, a5, a6⟩ := by
  intro is_
  induction is_ with
  | nil => intro as_ bs cs ds es i a1 a2 a3 a4 a5 a6 h1; simp at h1
  | cons x xs ih =>
    intro as_ bs cs ds es i a1 a2 a3 a4 a5 a6 h1 h2 h3 h4 h5 h6
    cases as_ with
    | nil => simp at h2
    | cons a as' =>
      cases bs with
      | nil => simp at h3
      | cons b bs' =>
        cases cs with
        | nil => simp at h4
        | cons c cs' =>
          cases ds with
          | nil => simp at h5
          | cons d ds' =>
            cases es with
            | nil => simp at h6
            | cons e es' =>
              cases i with
              | zero =>
                simp only [List.getElem?_cons_zero, Option.some.injEq] at h1 h2 h3 h4 h5 h6
                subst h1; subst h2; subst h3; subst h4; subst h5; subst h6
                simp [build_features]
              | succ n =>
                simp only [List.getElem?_cons_succ] at h1 h2 h3 h4 h5 h6
                simp only [build_features, List.getElem?_cons_succ]
                exact ih as' bs' cs' ds' es' n a1 a2 a3 a4 a5 a6 h1 h2 h3 h4 h5 h6

theorem mem_build_features :
    ∀ (is_ : List String) (as_ bs cs ds es : List ℚ) (r : FeatureRow),
      r ∈ build_features is_ as_ bs cs ds es →
      r.capacity_score ∈ as_ ∧ r.time_score ∈ bs ∧ r.affinity_score ∈ cs ∧
      r.deadhead_score ∈ ds ∧ r.corridor_score ∈ es := by
  intro is_
  induction is_ with
  | nil => intro as_ bs cs ds es r hr; simp [build_features] at hr
  | cons x xs ih =>
    intro as_ bs cs ds es r hr
    cases as_ with
    | nil => simp [build_features] at hr
    | cons a as' =>
      cases bs with
      | nil => simp [build_features] at hr
      | cons b bs' =>
        cases cs with
        | nil => simp [build_features] at hr
        | cons c cs' =>
          cases ds with
          | nil => simp [build_features] at hr
          | cons d ds' =>
            cases es with
            | nil => simp [build_features] at hr
            | cons e es' =>
              rcases List.mem_cons.mp hr with h | h
              · subst h
                exact ⟨List.mem_cons_self _ _, List.mem_cons_self _ _,
                  List.mem_cons_self _ _, List.mem_cons_self _ _, List.mem_cons_self _ _⟩
              · have := ih as' bs' cs' ds' es' r h
                exact ⟨List.mem_cons_of_mem _ this.1, List.mem_cons_of_mem _ this.2.1,
                  List.mem_cons_of_mem _ this.2.2.1, List.mem_cons_of_mem _ this.2.2.2.1,
                  List.mem_cons_of_mem _ this.2.2.2.2⟩

theorem compute_scores_eq_some (drivers : List Transporter) (req : ShipmentRequest)
    (h : drivers ≠ []) :
    ∃ dh cor,
      inv_normalize (drivers.map (fun t => deadhead_dist req t)) = some dh ∧
      inv_normalize (drivers.map (fun t => total_dev req t)) = some cor ∧
      dh.length = drivers.length ∧ cor.length = drivers.length ∧
      compute_scores drivers req =
        some (build_features (drivers.map (fun t => t.driver_id))
          (drivers.map (fun t => capacity_mask req.required_capacity t))
          (extract_temporal_score (drivers.map (fun t => t.available_date))
            req.requested_date)
          (extract_affinity_score (drivers.map (fun t => t.allowed_crops)) req.crop_type)
          dh cor) := by
  cases drivers with
  | nil => exact absurd rfl h
  | cons t ts =>
    obtain ⟨dh, hdh, hdhlen⟩ :=
      inv_normalize_some (deadhead_dist req t) (ts.map (fun t => deadhead_dist req t))
    obtain ⟨cor, hcor, hcorlen⟩ :=
      inv_normalize_some (total_dev req t) (ts.map (fun t => total_dev req t))
    refine ⟨dh, cor, ?_, ?_, ?_, ?_, ?_⟩
    · simpa using hdh
    · simpa using hcor
    · simpa using hdhlen
    · simpa using hcorlen
    · unfold compute_scores
      simp only [List.map_cons] at hdh hcor ⊢
      rw [hdh, hcor]

theorem compute_scores_nil (req : ShipmentRequest) : compute_scores [] req = none := by
  rfl

theorem extract_temporal_length (driver_dates : List (Option ℤ)) (request_date : Option ℤ) :
    (extract_temporal_score driver_dates request_date).length = driver_dates.length := by
  cases request_date with
  | none => simp [extract_temporal_score]
  | some rd => simp [extract_temporal_score]

theorem extract_temporal_getElem? (driver_dates : List (Option ℤ)) (i : Nat)
    (d? : Option ℤ) (h : driver_dates[i]? = some d?) :
    ∀ request_date : Option ℤ,
      (extract_temporal_score driver_dates request_date)[i]? =
        some (match request_date with
          | none => 1
          | some rd => temporal_one rd d?) := by
  intro request_date
  cases request_date with
  | none =>
    have hi : i < driver_dates.length := by
      rw [List.getElem?_eq_some] at h
      exact h.1
    simp [extract_temporal_score, List.getElem?_replicate, hi]
  | some rd =>
    simp [extract_temporal_score, List.getElem?_map, h]

theorem temporal_one_range (rd : ℤ) (d? : Option ℤ) :
    0 ≤ temporal_one rd d? ∧ temporal_one rd d? ≤ 1 := by
  cases d? with
  | none => simp [temporal_one]
  | some d =>
    simp only [temporal_one]
    split_ifs <;> norm_num

theorem extract_temporal_mem (driver_dates : List (Option ℤ)) (request_date : Option ℤ)
    (y : ℚ) (hy : y ∈ extract_temporal_score driver_dates request_date) :
    0 ≤ y ∧ y ≤ 1 := by
  cases request_date with
  | none =>
    have h1 : y ∈ List.replicate driver_dates.length (1 : ℚ) := hy
    have := List.eq_of_mem_replicate h1
    subst this
    exact ⟨zero_le_one, le_refl 1⟩
  | some rd =>
    have h1 : y ∈ driver_dates.map (temporal_one rd) := hy
    rcases List.mem_map.mp h1 with ⟨d?, _, hd⟩
    rw [← hd]
    exact temporal_one_range rd d?

theorem affinity_one_range (request_crop : String) (allowed : Option String) :
    0 ≤ affinity_one request_crop allowed ∧ affinity_one request_crop allowed ≤ 1 := by
  cases allowed with
  | none => simp [affinity_one]
  | some s =>
    simp only [affinity_one]
    split_ifs <;> norm_num

theorem extract_affinity_mem (series : List (Option String)) (request_crop : String)
    (y : ℚ) (hy : y ∈ extract_affinity_score series request_crop) :
    0 ≤ y ∧ y ≤ 1 := by
  rcases List.mem_map.mp hy with ⟨a?, _, ha⟩
  rw [← ha]
  exact affinity_one_range request_crop a?

theorem capacity_mask_cases (req_cap : ℚ) (t : Transporter) :
    capacity_mask req_cap t = 0 ∨ capacity_mask req_cap t = 1 := by
  unfold capacity_mask
  split_ifs <;> simp

theorem final_score_bounds (r : FeatureRow)
    (hcap : r.capacity_score = 0 ∨ r.capacity_score = 1)
    (ht : 0 ≤ r.time_score ∧ r.time_score ≤ 1)
    (ha : 0 ≤ r.affinity_score ∧ r.affinity_score ≤ 1)
    (hd : 0 ≤ r.deadhead_score ∧ r.deadhead_score ≤ 1)
    (hc : 0 ≤ r.corridor_score ∧ r.corridor_score ≤ 1) :
    0 ≤ final_score r ∧ final_score r ≤ 1 := by
  unfold final_score W_DEADHEAD W_CORRIDOR W_AFFINITY W_TIME
  rcases hcap with h | h <;> rw [h]
  · norm_num
  · constructor
    · nlinarith [ht.1, ha.1, hd.1, hc.1]
    · nlinarith [ht.2, ha.2, hd.2, hc.2]

theorem capacity_mask_eq_one_iff (req_cap : ℚ) (t : Transporter) :
    capacity_mask req_cap t = 1 ↔ req_cap ≤ t.available_capacity.getD 0 := by
  unfold capacity_mask
  split_ifs with hc
  · exact iff_of_true rfl hc
  · constructor
    · intro h01; norm_num at h01
    · intro hcc; exact absurd hcc hc

theorem mem_insert_by_score (x : FeatureRow) (l : List FeatureRow) (a : FeatureRow) :
    a ∈ insert_by_score x l ↔ a = x ∨ a ∈ l := by
  induction l with
  | nil => simp [insert_by_score]
  | cons y ys ih =>
    simp only [insert_by_score]
    split_ifs with h
    · simp only [List.mem_cons]
    · rw [List.mem_cons, ih, List.mem_cons]
      tauto

theorem sorted_insert_by_score (x : FeatureRow) (l : List FeatureRow)
    (h : l.Sorted (fun a b => final_score b ≤ final_score a)) :
    (insert_by_score x l).Sorted (fun a b => final_score b ≤ final_score a) := by
  induction l with
  | nil => simp [insert_by_score]
  | cons y ys ih =>
    rw [List.sorted_cons] at h
    obtain ⟨hy, hys⟩ := h
    simp only [insert_by_score]
    split_ifs with hlt
    · rw [List.sorted_cons]
      constructor
      · intro b hb
        rcases List.mem_cons.mp hb with hb | hb
        · subst hb; exact hlt.le
        · exact le_trans (hy b hb) hlt.le
      · rw [List.sorted_cons]; exact ⟨hy, hys⟩
    · rw [List.sorted_cons]
      refine ⟨?_, ih hys⟩
      intro b hb
      rcases (mem_insert_by_score x ys b).mp hb with hb | hb
      · subst hb; exact not_lt.mp hlt
      · exact hy b hb

theorem sorted_sort_by_score_desc (l : List FeatureRow) :
    (sort_by_score_desc l).Sorted (fun a b => final_score b ≤ final_score a) := by
  induction l with
  | nil => simp [sort_by_score_desc]
  | cons x xs ih => exact sorted_insert_by_score x _ ih

theorem compute_scores_inv (drivers : List Transporter) (req : ShipmentRequest)
    (rows : List FeatureRow) (h : compute_scores drivers req = some rows) :
    ∃ dh cor,
      inv_normalize (drivers.map (fun t => deadhead_dist req t)) = some dh ∧
      inv_normalize (drivers.map (fun t => total_dev req t)) = some cor ∧
      dh.length = drivers.length ∧ cor.length = drivers.length ∧
      rows = build_features (drivers.map (fun t => t.driver_id))
        (drivers.map (fun t => capacity_mask req.required_capacity t))
        (extract_temporal_score (drivers.map (fun t => t.available_date))
          req.requested_date)
        (extract_affinity_score (drivers.map (fun t => t.allowed_crops)) req.crop_type)
        dh cor := by
  have hne : drivers ≠ [] := by
    intro hnil
    subst hnil
    rw [compute_scores_nil] at h
    cases h
  obtain ⟨dh, cor, hdh, hcor, hl1, hl2, hcs⟩ := compute_scores_eq_some drivers req hne
  rw [h] at hcs
  exact ⟨dh, cor, hdh, hcor, hl1, hl2, Option.some.inj hcs⟩

theorem compute_scores_row (drivers : List Transporter) (req : ShipmentRequest)
    (rows : List FeatureRow) (h : compute_scores drivers req = some rows)
    (i : Nat) (t : Transporter) (ht : drivers[i]? = some t) :
    ∃ dh cor,
      inv_normalize (drivers.map (fun t => deadhead_dist req t)) = some dh ∧
      inv_normalize (drivers.map (fun t => total_dev req t)) = some cor ∧
      ∃ (h1 : i < dh.length) (h2 : i < cor.length),
        rows[i]? = some
          { driver_id := t.driver_id
            capacity_score := capacity_mask req.required_capacity t
            time_score := match req.requested_date with
              | none => 1
              | some rd => temporal_one rd t.available_date
            affinity_score := affinity_one req.crop_type t.allowed_crops
            deadhead_score := dh.get ⟨i, h1⟩
            corridor_score := cor.get ⟨i, h2⟩ } := by
  obtain ⟨dh, cor, hdh, hcor, hl1, hl2, hrows⟩ := compute_scores_inv drivers req rows h
  have hi : i < drivers.length := by
    rw [List.getElem?_eq_some] at ht
    exact ht.1
  have h1 : i < dh.length := by rw [hl1]; exact hi
  have h2 : i < cor.length := by rw [hl2]; exact hi
  refine ⟨dh, cor, hdh, hcor, h1, h2, ?_⟩
  have hid : (drivers.map (fun t => t.driver_id))[i]? = some t.driver_id := by
    rw [List.getElem?_map, ht]; rfl
  have hcap : (drivers.map (fun t => capacity_mask req.required_capacity t))[i]? =
      some (capacity_mask req.required_capacity t) := by
    rw [List.getElem?_map, ht]; rfl
  have hdates : (drivers.map (fun t => t.available_date))[i]? = some t.available_date := by
    rw [List.getElem?_map, ht]; rfl
  have htime := extract_temporal_getElem? (drivers.map (fun t => t.available_date)) i
    t.available_date hdates req.requested_date
  have haff : (extract_affinity_score (drivers.map (fun t => t.allowed_crops))
      req.crop_type)[i]? = some (affinity_one req.crop_type t.allowed_crops) := by
    unfold extract_affinity_score
    rw [List.getElem?_map, List.getElem?_map, ht]
    rfl
  have hdhi : dh[i]? = some (dh.get ⟨i, h1⟩) := by
    rw [List.getElem?_eq_getElem h1]
    rfl
  have hcori : cor[i]? = some (cor.get ⟨i, h2⟩) := by
    rw [List.getElem?_eq_getElem h2]
    rfl
  rw [hrows]
  exact build_features_getElem? _ _ _ _ _ _ i _ _ _ _ _ _ hid hcap htime haff hdhi hcori

theorem compute_scores_sample :
    compute_scores [sample_transporter] sample_request = some sample_rows := by
  simp only [compute_scores, sample_transporter, sample_request, capacity_mask,
    extract_temporal_score, temporal_one, extract_affinity_score, affinity_one,
    deadhead_dist, total_dev, compute_distance, compute_cross_track_deviation,
    inv_normalize, build_features, home_lat, home_lon, pySplit, splitOnChar,
    get_category, CROP_CATEGORIES, safe_pivots, List.map]
  norm_num
  rfl

/-! Claim theorems. -/

/-- C1: for every transporter and every request, the capacity score is
exactly 0 or 1, it is 1 iff the transporter's available capacity is at least
the request's required capacity, and it is a multiplicative gate: any row
with capacity score 0 has composite (final) score 0 regardless of the other
four scores. -/
theorem capacity_binary_gate (drivers : List Transporter) (req : ShipmentRequest)
    (rows : List FeatureRow) (h : compute_scores drivers req = some rows) :
    (∀ (i : Nat) (t : Transporter), drivers[i]? = some t →
      ∃ r : FeatureRow, rows[i]? = some r ∧
        (r.capacity_score = 0 ∨ r.capacity_score = 1) ∧
        (r.capacity_score = 1 ↔ req.required_capacity ≤ t.available_capacity.getD 0)) ∧
    (∀ r : FeatureRow, r.capacity_score = 0 → final_score r = 0) := by
  constructor
  · intro i t ht
    obtain ⟨dh, cor, hdh, hcor, h1, h2, hrow⟩ := compute_scores_row drivers req rows h i t ht
    exact ⟨_, hrow, capacity_mask_cases req.required_capacity t,
      capacity_mask_eq_one_iff req.required_capacity t⟩
  · intro r h0
    unfold final_score
    rw [h0, mul_zero]

/-- Witness for C1: the theorem applied to the concrete one-transporter
table and request above. -/
theorem capacity_binary_gate_witness :
    compute_scores [sample_transporter] sample_request = some sample_rows ∧
    ((∀ (i : Nat) (t : Transporter), [sample_transporter][i]? = some t →
      ∃ r : FeatureRow, sample_rows[i]? = some r ∧
        (r.capacity_score = 0 ∨ r.capacity_score = 1) ∧
        (r.capacity_score = 1 ↔
          sample_request.required_capacity ≤ t.available_capacity.getD 0)) ∧
    (∀ r : FeatureRow, r.capacity_score = 0 → final_score r = 0)) :=
  ⟨compute_scores_sample,
    capacity_binary_gate [sample_transporter] sample_request sample_rows
      compute_scores_sample⟩

/-- C2: every per-factor score of every row produced by one matching call
lies in the closed interval from 0 to 1, and so does the composite (final)
score. -/
theorem per_factor_scores_unit_interval (drivers : List Transporter)
    (req : ShipmentRequest) (rows : List FeatureRow)
    (h : compute_scores drivers req = some rows) :
    ∀ r ∈ rows,
      (0 ≤ r.capacity_score ∧ r.capacity_score ≤ 1) ∧
      (0 ≤ r.time_score ∧ r.time_score ≤ 1) ∧
      (0 ≤ r.affinity_score ∧ r.affinity_score ≤ 1) ∧
      (0 ≤ r.deadhead_score ∧ r.deadhead_score ≤ 1) ∧
      (0 ≤ r.corridor_score ∧ r.corridor_score ≤ 1) ∧
      (0 ≤ final_score r ∧ final_score r ≤ 1) := by
  intro r hr
  obtain ⟨dh, cor, hdh, hcor, hl1, hl2, hrows⟩ := compute_scores_inv drivers req rows h
  rw [hrows] at hr
  obtain ⟨hcapm, htimem, haffm, hdhm, hcorm⟩ := mem_build_features _ _ _ _ _ _ r hr
  have hcap01 : r.capacity_score = 0 ∨ r.capacity_score = 1 := by
    rcases List.mem_map.mp hcapm with ⟨t, _, hteq⟩
    rw [← hteq]
    exact capacity_mask_cases _ t
  have hcapb : 0 ≤ r.capacity_score ∧ r.capacity_score ≤ 1 := by
    rcases hcap01 with h0 | h1
    · rw [h0]; norm_num
    · rw [h1]; norm_num
  have htimeb := extract_temporal_mem _ _ _ htimem
  have haffb := extract_affinity_mem _ _ _ haffm
  have hdhb := inv_normalize_mem _ _ hdh _ hdhm
  have hcorb := inv_normalize_mem _ _ hcor _ hcorm
  exact ⟨hcapb, htimeb, haffb, hdhb, hcorb,
    final_score_bounds r hcap01 htimeb haffb hdhb hcorb⟩

/-- Witness for C2: the theorem applied to the concrete one-transporter
table and request above. -/
theorem per_factor_scores_unit_interval_witness :
    compute_scores [sample_transporter] sample_request = some sample_rows ∧
    (∀ r ∈ sample_rows,
      (0 ≤ r.capacity_score ∧ r.capacity_score ≤ 1) ∧
      (0 ≤ r.time_score ∧ r.time_score ≤ 1) ∧
      (0 ≤ r.affinity_score ∧ r.affinity_score ≤ 1) ∧
      (0 ≤ r.deadhead_score ∧ r.deadhead_score ≤ 1) ∧
      (0 ≤ r.corridor_score ∧ r.corridor_score ≤ 1) ∧
      (0 ≤ final_score r ∧ final_score r ≤ 1)) :=
  ⟨compute_scores_sample,
    per_factor_scores_unit_interval [sample_transporter] sample_request sample_rows
      compute_scores_sample⟩

theorem request_matches_eq (drivers : List Transporter) (req : ShipmentRequest)
    (k : Nat) (features : List FeatureRow)
    (hcs : compute_scores drivers req = some features) :
    request_matches drivers req k = some
      ((((sort_by_score_desc features).take k).filter (fun r => 0 < final_score r)).map
        (fun r => { request_id := req.request_id, driver_id := r.driver_id,
                    final_score := final_score r, capacity_score := r.capacity_score,
                    time_score := r.time_score, affinity_score := r.affinity_score,
                    deadhead_score := r.deadhead_score,
                    corridor_score := r.corridor_score })) := by
  unfold request_matches
  rw [hcs]
  rfl

theorem request_matches_sample :
    request_matches [sample_transporter] sample_request 3 = some [sample_match] := by
  rw [request_matches_eq [sample_transporter] sample_request 3 sample_rows
    compute_scores_sample]
  simp only [sample_rows, sort_by_score_desc, insert_by_score, List.take,
    List.filter, final_score, W_DEADHEAD, W_CORRIDOR, W_AFFINITY, W_TIME,
    sample_request, sample_match, List.map]
  norm_num

/-- C3: the match records emitted for one request number at most `top_k`
(default 3), all have composite score strictly greater than 0, and are
sorted in descending order of composite score. -/
theorem topk_selection (drivers : List Transporter) (req : ShipmentRequest)
    (k : Nat) (ms : List Match) (h : request_matches drivers req k = some ms) :
    ms.length ≤ k ∧ (∀ m ∈ ms, 0 < m.final_score) ∧
    List.Sorted (fun a b : Match => b.final_score ≤ a.final_score) ms := by
  cases hcs : compute_scores drivers req with
  | none =>
    unfold request_matches at h
    rw [hcs] at h
    cases h
  | some features =>
    rw [request_matches_eq drivers req k features hcs] at h
    have hms := (Option.some.inj h).symm
    subst hms
    refine ⟨?_, ?_, ?_⟩
    · rw [List.length_map]
      calc (((sort_by_score_desc features).take k).filter
            (fun r => 0 < final_score r)).length
          ≤ ((sort_by_score_desc features).take k).length :=
            List.length_filter_le _ _
        _ ≤ k := by
            rw [List.length_take]
            exact min_le_left k _
    · intro m hm
      rcases List.mem_map.mp hm with ⟨r, hrmem, hrm⟩
      have hp := (List.mem_filter.mp hrmem).2
      have : 0 < final_score r := of_decide_eq_true hp
      rw [← hrm]
      exact this
    · rw [List.Sorted, List.pairwise_map]
      have hs : List.Sublist
          (((sort_by_score_desc features).take k).filter (fun r => 0 < final_score r))
          (sort_by_score_desc features) :=
        (List.filter_sublist _).trans (List.take_sublist k _)
      exact (sorted_sort_by_score_desc features).sublist hs

/-- Witness for C3: the theorem applied to the concrete one-transporter
table and request above. -/
theorem topk_selection_witness :
    request_matches [sample_transporter] sample_request 3 = some [sample_match] ∧
    ([sample_match].length ≤ 3 ∧ (∀ m ∈ [sample_match], 0 < m.final_score) ∧
      List.Sorted (fun a b : Match => b.final_score ≤ a.final_score) [sample_match]) :=
  ⟨request_matches_sample,
    topk_selection [sample_transporter] sample_request 3 [sample_match]
      request_matches_sample⟩

theorem affinity_one_characterization (request_crop : String) (s : String) :
    affinity_one request_crop (some s) =
      if request_crop ∈ pySplit '|' s then 1
      else if ∃ c ∈ pySplit '|' s, get_category c = get_category request_crop then 0.8
      else if ∃ pair ∈ safe_pivots, get_category request_crop ∈ pair ∧
          ∃ c ∈ pySplit '|' s, get_category c ∈ pair then 0.4
      else 0 := by
  simp only [affinity_one]
  by_cases h1 : request_crop ∈ pySplit '|' s
  · rw [if_pos h1, if_pos h1]
  · rw [if_neg h1, if_neg h1]
    by_cases h2 : ∃ c ∈ pySplit '|' s, get_category c = get_category request_crop
    · have h2m : get_category request_crop ∈ (pySplit '|' s).map get_category := by
        rcases h2 with ⟨c, hc, hceq⟩
        exact List.mem_map.mpr ⟨c, hc, hceq⟩
      rw [if_pos h2m, if_pos h2]
    · have h2m : get_category request_crop ∉ (pySplit '|' s).map get_category := by
        intro hmem
        rcases List.mem_map.mp hmem with ⟨c, hc, hceq⟩
        exact h2 ⟨c, hc, hceq⟩
      rw [if_neg h2m, if_neg h2]
      by_cases h3 : ∃ pair ∈ safe_pivots, get_category request_crop ∈ pair ∧
          ∃ c ∈ pySplit '|' s, get_category c ∈ pair
      · have h3b : (safe_pivots.any fun pair =>
            pair.contains (get_category request_crop) &&
            ((pySplit '|' s).map get_category).any fun dc => pair.contains dc) = true := by
          rcases h3 with ⟨pair, hpair, hreq, c, hc, hcat⟩
          rw [List.any_eq_true]
          refine ⟨pair, hpair, ?_⟩
          rw [Bool.and_eq_true]
          refine ⟨List.elem_iff.mpr hreq, ?_⟩
          rw [List.any_eq_true]
          exact ⟨get_category c, List.mem_map.mpr ⟨c, hc, rfl⟩, List.elem_iff.mpr hcat⟩
        rw [if_pos h3b, if_pos h3]
      · have h3b : ¬ ((safe_pivots.any fun pair =>
            pair.contains (get_category request_crop) &&
            ((pySplit '|' s).map get_category).any fun dc => pair.contains dc) = true) := by
          intro hany
          rw [List.any_eq_true] at hany
          rcases hany with ⟨pair, hpair, hb⟩
          rw [Bool.and_eq_true] at hb
          obtain ⟨hb1, hb2⟩ := hb
          rw [List.any_eq_true] at hb2
          rcases hb2 with ⟨dc, hdc, hdcb⟩
          rcases List.mem_map.mp hdc with ⟨c, hc, hceq⟩
          refine h3 ⟨pair, hpair, List.elem_iff.mp hb1, c, hc, ?_⟩
          rw [hceq]
          exact List.elem_iff.mp hdcb
        rw [if_neg h3b, if_neg h3]

/-- C4: the cargo affinity score is resolved by precedence with first match
winning: 1.0 for an exact label match, else 0.8 when the transporter carries
some label of the request's category, else 0.4 when the request's category
and some transporter category lie in a configured safe-pivot pair, else 0.0;
and a transporter with no recorded allowed-labels scores 0.0. -/
theorem affinity_precedence (request_crop : String) :
    affinity_one request_crop none = 0 ∧
    ∀ s : String,
      affinity_one request_crop (some s) =
        if request_crop ∈ pySplit '|' s then 1
        else if ∃ c ∈ pySplit '|' s, get_category c = get_category request_crop then 0.8
        else if ∃ pair ∈ safe_pivots, get_category request_crop ∈ pair ∧
            ∃ c ∈ pySplit '|' s, get_category c ∈ pair then 0.4
        else 0 :=
  ⟨rfl, fun s => affinity_one_characterization request_crop s⟩

/-- Counterexample to C5: "Gold" lies outside the taxonomy (category
"Unknown"), yet a transporter whose allowed list contains the literal label
"Gold" scores 1.0 by exact string match, not 0.0. -/
theorem unknown_label_counterexample :
    get_category ("Gold") = "Unknown" ∧
    extract_affinity_score [some ("Gold")] ("Gold") = [1] ∧ (1 : ℚ) ≠ 0 := by
  refine ⟨by decide, ?_, by norm_num⟩
  simp only [extract_affinity_score, List.map, affinity_one]
  rw [if_pos (by decide : ("Gold" : String) ∈ pySplit '|' ("Gold"))]

/-- C5 as amended: for a request label outside the taxonomy (category
"Unknown") no safe-pivot match is possible, but the score is still 1.0 when
the exact label occurs verbatim in the transporter's allowed list, 0.8 when
the transporter carries some label that is itself outside the taxonomy
(category "Unknown" matches category "Unknown"), and only otherwise 0.0. -/
theorem unknown_label_affinity (request_crop : String)
    (h : get_category request_crop = "Unknown") :
    affinity_one request_crop none = 0 ∧
    ∀ s : String,
      affinity_one request_crop (some s) =
        if request_crop ∈ pySplit '|' s then 1
        else if ∃ c ∈ pySplit '|' s, get_category c = "Unknown" then 0.8
        else 0 := by
  refine ⟨rfl, fun s => ?_⟩
  rw [affinity_one_characterization request_crop s, h]
  by_cases h1 : request_crop ∈ pySplit '|' s
  · rw [if_pos h1, if_pos h1]
  · rw [if_neg h1, if_neg h1]
    by_cases h2 : ∃ c ∈ pySplit '|' s, get_category c = "Unknown"
    · rw [if_pos h2, if_pos h2]
    · rw [if_neg h2, if_neg h2]
      have h3 : ¬ ∃ pair ∈ safe_pivots, ("Unknown" : String) ∈ pair ∧
          ∃ c ∈ pySplit '|' s, get_category c ∈ pair := by
        intro hex
        rcases hex with ⟨pair, hpair, hmem, _⟩
        have hp : pair = ["Grains", "Tubers"] := by
          simpa [safe_pivots] using hpair
        rw [hp] at hmem
        simp at hmem
      rw [if_neg h3]

/-- Witness for the amended C5 at a concrete input: the out-of-taxonomy
label "Gold" against the allowed list "Rice" scores 0.0. -/
theorem unknown_label_affinity_witness :
    get_category ("Gold") = "Unknown" ∧ affinity_one ("Gold") (some ("Rice")) = 0 := by
  refine ⟨by decide, ?_⟩
  have h := (unknown_label_affinity ("Gold") (by decide)).2 ("Rice")
  rw [h]
  rw [if_neg (by decide), if_neg (by decide)]

theorem temporal_one_abs (rd d : ℤ) :
    temporal_one rd (some d) =
      if |d - rd| = 0 then 1
      else if |d - rd| = 1 then 0.8
      else if |d - rd| = 2 then 0.4
      else 0 := by
  have habs : |d - rd| = ((d - rd).natAbs : ℤ) := Int.abs_eq_natAbs _
  by_cases h0 : (d - rd).natAbs = 0
  · simp [temporal_one, h0, habs]
  · by_cases h1 : (d - rd).natAbs = 1
    · have e0 : ¬ |d - rd| = 0 := by rw [habs]; omega
      have e1 : |d - rd| = 1 := by rw [habs]; omega
      simp [temporal_one, h0, h1, e0, e1]
    · by_cases h2 : (d - rd).natAbs = 2
      · have e0 : ¬ |d - rd| = 0 := by rw [habs]; omega
        have e1 : ¬ |d - rd| = 1 := by rw [habs]; omega
        have e2 : |d - rd| = 2 := by rw [habs]; omega
        simp [temporal_one, h0, h1, h2, e0, e1, e2]
      · have e0 : ¬ |d - rd| = 0 := by rw [habs]; omega
        have e1 : ¬ |d - rd| = 1 := by rw [habs]; omega
        have e2 : ¬ |d - rd| = 2 := by rw [habs]; omega
        simp [temporal_one, h0, h1, h2, e0, e1, e2]

/-- C6: the temporal score is the step function of the absolute day
difference (0 days gives 1.0, 1 day 0.8, 2 days 0.4, 3 or more days 0.0),
and when the request date is absent every transporter receives 1.0. -/
theorem temporal_step_spec (driver_dates : List (Option ℤ)) (request_date : ℤ)
    (i : Nat) (d : ℤ) (hd : driver_dates[i]? = some (some d)) :
    extract_temporal_score driver_dates none = List.replicate driver_dates.length 1 ∧
    (extract_temporal_score driver_dates (some request_date))[i]? =
      some (if |d - request_date| = 0 then 1
        else if |d - request_date| = 1 then 0.8
        else if |d - request_date| = 2 then 0.4
        else 0) ∧
    (3 ≤ |d - request_date| →
      (extract_temporal_score driver_dates (some request_date))[i]? = some 0) := by
  have hget := extract_temporal_getElem? driver_dates i (some d) hd (some request_date)
  refine ⟨rfl, ?_, ?_⟩
  · rw [hget]
    show some (temporal_one request_date (some d)) = _
    rw [temporal_one_abs]
  · intro h3
    rw [hget]
    show some (temporal_one request_date (some d)) = _
    rw [temporal_one_abs]
    rw [Int.abs_eq_natAbs] at h3
    have e0 : ¬ |d - request_date| = 0 := by rw [Int.abs_eq_natAbs]; omega
    have e1 : ¬ |d - request_date| = 1 := by rw [Int.abs_eq_natAbs]; omega
    have e2 : ¬ |d - request_date| = 2 := by rw [Int.abs_eq_natAbs]; omega
    rw [if_neg e0, if_neg e1, if_neg e2]

/-- Witness for C6 at a concrete input: one transporter available on day 5
against a request on day 3 (difference 2) scores 0.4, and with no request
date scores 1.0. -/
theorem temporal_step_spec_witness :
    ([some 5] : List (Option ℤ))[0]? = some (some 5) ∧
    (extract_temporal_score [some 5] none = List.replicate ([some 5] : List (Option ℤ)).length 1 ∧
     (extract_temporal_score [some 5] (some 3))[0]? =
       some ((if |(5 : ℤ) - 3| = 0 then 1
         else if |(5 : ℤ) - 3| = 1 then 0.8
         else if |(5 : ℤ) - 3| = 2 then 0.4
         else 0 : ℚ)) ∧
     (3 ≤ |(5 : ℤ) - 3| →
       (extract_temporal_score [some 5] (some 3))[0]? = some 0)) :=
  ⟨rfl, temporal_step_spec [some 5] 3 0 5 rfl⟩

/-- C7: on a non-empty raw vector the normalizer returns, for each entry,
1 - (x - min)/(max - min), except that when max - min is at most the epsilon
1e-12 every transporter receives 1.0; in particular an all-identical vector
normalizes to all 1.0 and the division is never taken with a zero range. -/
theorem inv_normalize_spec (arr : List ℚ) (h : arr ≠ []) :
    ∃ out minv maxv,
      inv_normalize arr = some out ∧
      minv ∈ arr ∧ (∀ y ∈ arr, minv ≤ y) ∧
      maxv ∈ arr ∧ (∀ y ∈ arr, y ≤ maxv) ∧
      (maxv - minv ≤ 1 / 10 ^ 12 → out = List.replicate arr.length 1) ∧
      (1 / 10 ^ 12 < maxv - minv →
        out = arr.map (fun x => 1 - (x - minv) / (maxv - minv))) ∧
      ((∀ y ∈ arr, ∀ z ∈ arr, y = z) → out = List.replicate arr.length 1) := by
  cases arr with
  | nil => exact absurd rfl h
  | cons x xs =>
    rw [inv_normalize_cons]
    by_cases hc : xs.foldl max x - xs.foldl min x ≤ 1 / 10 ^ 12
    · refine ⟨List.replicate (x :: xs).length 1, xs.foldl min x, xs.foldl max x,
        by rw [if_pos hc], foldl_min_mem xs x, foldl_min_le xs x,
        foldl_max_mem xs x, le_foldl_max xs x, fun _ => rfl, ?_, fun _ => rfl⟩
      intro hlt
      exact absurd hc (not_le.mpr hlt)
    · refine ⟨(x :: xs).map
        (fun v => 1 - (v - xs.foldl min x) / (xs.foldl max x - xs.foldl min x)),
        xs.foldl min x, xs.foldl max x,
        by rw [if_neg hc], foldl_min_mem xs x, foldl_min_le xs x,
        foldl_max_mem xs x, le_foldl_max xs x, ?_, fun _ => rfl, ?_⟩
      · intro hle
        exact absurd hle hc
      · intro hall
        have hmin := hall _ (foldl_min_mem xs x) _ (List.mem_cons_self x xs)
        have hmax := hall _ (foldl_max_mem xs x) _ (List.mem_cons_self x xs)
        have : xs.foldl max x - xs.foldl min x = 0 := by rw [hmax, hmin]; ring
        exact absurd (by rw [this]; norm_num) hc

/-- Witness for C7: the theorem applied to the concrete raw vector
[3, 1, 5]. -/
theorem inv_normalize_spec_witness :
    ([3, 1, 5] : List ℚ) ≠ [] ∧
    (∃ out minv maxv,
      inv_normalize [3, 1, 5] = some out ∧
      minv ∈ ([3, 1, 5] : List ℚ) ∧ (∀ y ∈ ([3, 1, 5] : List ℚ), minv ≤ y) ∧
      maxv ∈ ([3, 1, 5] : List ℚ) ∧ (∀ y ∈ ([3, 1, 5] : List ℚ), y ≤ maxv) ∧
      (maxv - minv ≤ 1 / 10 ^ 12 →
        out = List.replicate ([3, 1, 5] : List ℚ).length 1) ∧
      (1 / 10 ^ 12 < maxv - minv →
        out = ([3, 1, 5] : List ℚ).map (fun x => 1 - (x - minv) / (maxv - minv))) ∧
      ((∀ y ∈ ([3, 1, 5] : List ℚ), ∀ z ∈ ([3, 1, 5] : List ℚ), y = z) →
        out = List.replicate ([3, 1, 5] : List ℚ).length 1)) :=
  ⟨by simp, inv_normalize_spec [3, 1, 5] (by simp)⟩

/-- C8 (refuting theorem for the code-bug finding): against an empty
transporter table the engine does not return an empty match list; the
`arr.min()` call inside `inv_normalize` raises a `ValueError` on the
zero-size deadhead array, modelled here by `none`. -/
theorem empty_table_raises (req : ShipmentRequest) :
    run_matching_engine [] [req] 3 = none ∧
    compute_scores [] req = none ∧
    inv_normalize [] = none :=
  ⟨rfl, rfl, rfl⟩

/-- Fallback paths the source explicitly implements, in the scope in which
it implements them: the date and crops columns are checked per cell
(`pd.isna`), while the home-base and capacity defaults fire only when the
whole COLUMN is absent from the table (`DataFrame.get`), which is why those
two hypotheses quantify over every record of the table.  In that scope no
error is raised and each affected factor takes its fallback value: missing
crops give affinity 0.0, a missing availability date gives temporal score
0.0 (when the request carries a date), an absent capacity column is treated
as 0 in the gate, and an absent home-base column makes the raw corridor
deviation degenerate to the direct distances from the current position to
pickup and dropoff. -/
theorem column_absent_fallback (drivers : List Transporter) (req : ShipmentRequest)
    (i : Nat) (t : Transporter) (ht : drivers[i]? = some t)
    (hcrops : t.allowed_crops = none) (hdate : t.available_date = none)
    (hcapcol : ∀ u ∈ drivers, u.available_capacity = none)
    (hlatcol : ∀ u ∈ drivers, u.home_base_lat = none)
    (hloncol : ∀ u ∈ drivers, u.home_base_lon = none) :
    ∃ rows r, compute_scores drivers req = some rows ∧ rows[i]? = some r ∧
      r.affinity_score = 0 ∧
      (∀ rd : ℤ, req.requested_date = some rd → r.time_score = 0) ∧
      r.capacity_score = (if req.required_capacity ≤ 0 then 1 else 0) ∧
      total_dev req t =
        compute_distance t.current_lat t.current_lon req.pickup_lat req.pickup_lon +
        compute_distance t.current_lat t.current_lon req.dropoff_lat req.dropoff_lon := by
  have hmem : t ∈ drivers := List.getElem?_mem ht
  have hcap : t.available_capacity = none := hcapcol t hmem
  have hlat : t.home_base_lat = none := hlatcol t hmem
  have hlon : t.home_base_lon = none := hloncol t hmem
  have hne : drivers ≠ [] := by
    intro hnil
    subst hnil
    simp at ht
  obtain ⟨dh0, cor0, hdh0, hcor0, hl10, hl20, hcs⟩ := compute_scores_eq_some drivers req hne
  obtain ⟨dh, cor, hdh, hcor, h1, h2, hrow⟩ := compute_scores_row drivers req _ hcs i t ht
  refine ⟨_, _, hcs, hrow, ?_, ?_, ?_, ?_⟩
  · show affinity_one req.crop_type t.allowed_crops = 0
    rw [hcrops]
    rfl
  · intro rd hrd
    show (match req.requested_date with
      | none => 1
      | some rd => temporal_one rd t.available_date) = (0 : ℚ)
    rw [hrd]
    show temporal_one rd t.available_date = (0 : ℚ)
    rw [hdate]
    rfl
  · show capacity_mask req.required_capacity t = _
    unfold capacity_mask
    rw [hcap]
    rfl
  · unfold total_dev home_lat home_lon
    rw [hlat, hlon]
    simp only [Option.getD_none]
    unfold compute_cross_track_deviation
    have hz : t.current_lat - t.current_lat = 0 := sub_self _
    rw [hz]
    have hsq : Rat.sqrt ((0 : ℚ) ^ 2 + 0 ^ 2) = 0 := by
      rw [show ((0 : ℚ) ^ 2 + 0 ^ 2) = 0 by norm_num]
      exact rat_sqrt_zero
    simp [sub_self, hsq]

/-- Evaluation of `column_absent_fallback` on the concrete one-row table
whose optional columns are absent. -/
theorem column_absent_fallback_eval :
    ∃ rows r, compute_scores [bare_transporter] sample_request = some rows ∧
      rows[0]? = some r ∧
      r.affinity_score = 0 ∧
      (∀ rd : ℤ, sample_request.requested_date = some rd → r.time_score = 0) ∧
      r.capacity_score = (if sample_request.required_capacity ≤ 0 then 1 else 0) ∧
      total_dev sample_request bare_transporter =
        compute_distance bare_transporter.current_lat bare_transporter.current_lon
          sample_request.pickup_lat sample_request.pickup_lon +
        compute_distance bare_transporter.current_lat bare_transporter.current_lon
          sample_request.dropoff_lat sample_request.dropoff_lon :=
  column_absent_fallback [bare_transporter] sample_request 0 bare_transporter
    rfl rfl rfl
    (by intro u hu; rw [List.mem_singleton] at hu; subst hu; rfl)
    (by intro u hu; rw [List.mem_singleton] at hu; subst hu; rfl)
    (by intro u hu; rw [List.mem_singleton] at hu; subst hu; rfl)

/-- C9 (code-bug evidence): a transporter record whose optional home-base
and capacity cells are empty inside PRESENT columns does not receive the
documented fallback scores.  On `bare_transporter` (every optional cell
empty) against `sample_request`: the raw corridor deviation is NaN; the NaN
cell poisons `inv_normalize`, so the whole corridor column — here the single
entry — is NaN rather than the section-4.2 fallback (which the column-absent
path computes as 1.0 on the same table); a NaN capacity cell gives gate 0
even at required capacity 0, where the treat-as-0 fallback gives 1; a
weighted sum with a NaN corridor term is NaN even after multiplication by a
0 or 1 mask; and the `> 0` viability check is false on NaN, so the row is
silently dropped and no match record is emitted for the transporter at
all. -/
theorem missing_cell_nan_poisoning :
    bare_transporter.home_base_lat = none ∧
    bare_transporter.available_capacity = none ∧
    total_dev_cell sample_request bare_transporter = none ∧
    inv_normalize_cell
      (List.map (fun t => total_dev_cell sample_request t) [bare_transporter]) =
      some [none] ∧
    inv_normalize
      (List.map (fun t => total_dev sample_request t) [bare_transporter]) = some [1] ∧
    capacity_mask_cell 0 bare_transporter.available_capacity = 0 ∧
    capacity_mask 0 bare_transporter = 1 ∧
    final_score_cell (some 1) none (some 0) (some 0) (some 0) = none ∧
    final_score_cell (some 1) none (some 0) (some 0) (some 1) = none ∧
    flt 0 (final_score_cell (some 1) none (some 0) (some 0) (some 0)) = false := by
  refine ⟨rfl, rfl, rfl, rfl, ?_, rfl, ?_, rfl, rfl, rfl⟩
  · simp only [List.map, total_dev, home_lat, home_lon, bare_transporter, sample_request,
      compute_cross_track_deviation, compute_distance, inv_normalize]
    norm_num
  · unfold capacity_mask
    norm_num [bare_transporter]
